import Mathlib

set_option maxHeartbeats 1000000

/-! Shallow embedding of the OpenQQ Flask application (src/OpenQQ/app.py):
the text-query resolution pipeline (route `/api/ask`), the one-time database
bootstrap (`init_db`), and the label-selection step of the image autotagger
(route `/api/autotag`).  SQLite behaviour that the code relies on is embedded
explicitly: the `LIKE` operator with its default ASCII-case-insensitive
comparison and its `%` / `_` wildcards, and the `INSERT` statement on a
`PRIMARY KEY` column, which raises a UNIQUE-constraint error when the key is
already present. -/

/-- One row of the `tech` table (a knowledge record). -/
structure TechRecord where
  name : String
  description : String
  url : String
deriving DecidableEq

/-- The built-in seed list `HEALTHCARE_TECH` from app.py. -/
def HEALTHCARE_TECH : List TechRecord :=
  [⟨"OpenMRS", "Customizable EMR system.", "https://openmrs.org/"⟩,
   ⟨"OpenEMR", "Open-source EHR and practice management.", "https://www.open-emr.org/"⟩,
   ⟨"GNU Health", "Health and hospital information system.", "https://www.gnuhealth.org/"⟩]

/-- The contents of the SQLite database file: the `cache` table (prompt is the
primary key) and the `tech` table, each in rowid order. -/
structure Store where
  cache : List (String × String)
  tech : List TechRecord
deriving DecidableEq

/-- ASCII-only lowercasing, the case folding SQLite applies in default
(case-insensitive) `LIKE` comparisons. -/
def asciiLower (c : Char) : Char :=
  if 'A' ≤ c ∧ c ≤ 'Z' then Char.ofNat (c.toNat + 32) else c

/-- After a `%` wildcard, the remaining pattern must match some suffix of the
string; `m` is the matcher for the remaining pattern. -/
def likeStar (m : List Char → Bool) : List Char → Bool
  | [] => m []
  | c :: s => m (c :: s) || likeStar m s

/-- SQLite `LIKE` matching with the default `case_sensitive_like=OFF` setting:
`%` matches any sequence of characters, `_` matches any single character, and
an ordinary pattern character matches ASCII-case-insensitively. -/
def likeM : List Char → List Char → Bool
  | [], s => s.isEmpty
  | p :: ps, s =>
    if p = '%' then likeStar (likeM ps) s
    else
      match s with
      | [] => false
      | c :: s' => (if p = '_' then true else decide (asciiLower p = asciiLower c)) && likeM ps s'

/-- The `LIKE` pattern built by the route: a `%` on each side of the prompt. -/
def likePat (q : String) : List Char := '%' :: q.data ++ ['%']

/-- The knowledge search issued on a cache miss:
`SELECT name, description FROM tech WHERE name LIKE ? OR description LIKE ?`
with the pattern `likePat prompt` bound to both placeholders; rows come back
in rowid (seed) order. -/
def searchTech (st : Store) (q : String) : List TechRecord :=
  st.tech.filter (fun r => likeM (likePat q) r.name.data || likeM (likePat q) r.description.data)

/-- The cache read: `SELECT response FROM cache WHERE prompt = ?` + `fetchone`.
Exact string equality on the key, no normalization. -/
def cacheGet (st : Store) (p : String) : Option String :=
  (st.cache.find? (fun e => e.1 == p)).map (fun e => e.2)

/-- The cache write: `INSERT INTO cache (prompt, response) VALUES (?, ?)`.
`prompt` is the primary key, and the statement is a plain INSERT (no
`OR REPLACE` / `ON CONFLICT` clause), so SQLite raises
`UNIQUE constraint failed` when the key is already present; otherwise the row
is appended. -/
def cachePut (st : Store) (p r : String) : Except String Store :=
  match st.cache.find? (fun e => e.1 == p) with
  | some _ => .error "UNIQUE constraint failed: cache.prompt"
  | none => .ok ⟨st.cache ++ [(p, r)], st.tech⟩

/-- The external generative client: `openai.ChatCompletion.create` either
returns the completion text or raises an exception carrying a message. -/
def GenClient := String → Except String String

/-- Availability of the SQLite layer during one request: whether the
read-side statements raise and whether the insert/commit raises.  app.py
wraps none of these calls in try/except, so a raise propagates out of the
route handler. -/
structure SqliteEnv where
  getRaises : Bool
  putRaises : Bool
deriving DecidableEq

/-- A fully available storage layer. -/
def reliable : SqliteEnv := ⟨false, false⟩

/-- Which pipeline stages a request actually executed. -/
structure AskTrace where
  searchedKnowledge : Bool
  calledGenerative : Bool
  wroteCache : Bool
deriving DecidableEq

/-- Trace of a request that never went past the cache lookup. -/
def noTrace : AskTrace := ⟨false, false, false⟩

/-- The HTTP outcome of the `/api/ask` route: a 400 validation error, a 200
JSON response, or a 500 from an uncaught exception. -/
inductive AskResult where
  | badRequest (msg : String)
  | ok (response : String)
  | serverError (msg : String)
deriving DecidableEq

/-- The PERSIST step of the route (lines 68-70): execute the INSERT and
commit, then return the response; an exception from either propagates as an
uncaught server error and nothing is committed. -/
def persistStep (env : SqliteEnv) (st : Store) (prompt response : String) (calledGen : Bool) :
    AskResult × Store × AskTrace :=
  if env.putRaises then (.serverError "StorageError", st, ⟨true, calledGen, false⟩)
  else
    match cachePut st prompt response with
    | .ok st2 => (.ok response, st2, ⟨true, calledGen, true⟩)
    | .error e => (.serverError e, st, ⟨true, calledGen, false⟩)

/-- The `/api/ask` route handler (lines 41-72 of app.py): validate the
prompt (`if not prompt`, so `None` and `""` both fail), look the prompt up in
the cache and return a hit immediately, otherwise run the knowledge search,
fall back to the generative client on an empty result (converting any
exception into the bracketed placeholder string), persist, and return. -/
def ask (env : SqliteEnv) (prompt? : Option String) (st : Store) (gen : GenClient) :
    AskResult × Store × AskTrace :=
  match prompt? with
  | none => (.badRequest "Prompt is required", st, noTrace)
  | some prompt =>
    if prompt = "" then (.badRequest "Prompt is required", st, noTrace)
    else if env.getRaises then (.serverError "StorageError", st, noTrace)
    else
      match cacheGet st prompt with
      | some cached => (.ok cached, st, noTrace)
      | none =>
        let results := searchTech st prompt
        if results = [] then
          match gen prompt with
          | .ok text => persistStep env st prompt text true
          | .error e => persistStep env st prompt ("[Error calling model: " ++ e ++ "]") true
        else
          persistStep env st prompt
            (String.intercalate "\n" (results.map (fun r => r.name ++ ": " ++ r.description)))
            false

/-- `init_db` (lines 26-34): if the database file is absent, create the two
tables and seed `tech` from `HEALTHCARE_TECH` (the cache starts empty); if
the file already exists, do nothing at all. -/
def init_db : Option Store → Option Store
  | none => some ⟨[], HEALTHCARE_TECH⟩
  | some st => some st

/-- The store produced by a fresh `init_db` run. -/
def seededStore : Store := ⟨[], HEALTHCARE_TECH⟩

/-- The fixed candidate label list of the autotag route. -/
def tags : List String := ["robot", "sensor", "healthcare", "technology"]

/-- Maximum of a list of scores (softmax outputs, modelled as rationals). -/
def listMax : List ℚ → ℚ
  | [] => 0
  | x :: xs => xs.foldl max x

/-- `probs.argmax().item()`: the index of the first occurrence of the maximum
(torch.argmax returns the first maximal index). -/
def argmaxIdx (l : List ℚ) : Nat := l.findIdx (fun x => decide (x = listMax l))

/-- The label-selection step of the `/api/autotag` route (lines 86-88):
`tags[probs.argmax().item()]` applied to the softmax probability vector. -/
def autotagSelect (probs : List ℚ) : String := tags.getD (argmaxIdx probs) ""

/-- Literal case-sensitive substring containment, following the claim's
wording of the search contract (used to compare against `searchTech`). -/
def litSub (q : List Char) : List Char → Bool
  | [] => q.isEmpty
  | c :: s => q.isPrefixOf (c :: s) || litSub q s

/-- Knowledge search as the specification words it: return exactly the
records whose name or description contains the query as a case-sensitive
literal substring, in table order. -/
def specSearch (st : Store) (q : String) : List TechRecord :=
  st.tech.filter (fun r => litSub q.data r.name.data || litSub q.data r.description.data)

/-! ### Helper lemmas about the cache and the pipeline branches -/

theorem cacheGet_eq_none_iff (st : Store) (p : String) :
    cacheGet st p = none ↔ st.cache.find? (fun e => e.1 == p) = none := by
  simp [cacheGet]

theorem find?_key_append (c : List (String × String)) (p r : String)
    (h : c.find? (fun e => e.1 == p) = none) :
    (c ++ [(p, r)]).find? (fun e => e.1 == p) = some (p, r) := by
  rw [List.find?_append, h]
  simp [List.find?]

theorem cacheGet_append (st : Store) (t2 : List TechRecord) (p r : String)
    (h : cacheGet st p = none) :
    cacheGet ⟨st.cache ++ [(p, r)], t2⟩ p = some r := by
  have h' := (cacheGet_eq_none_iff st p).mp h
  simp [cacheGet, find?_key_append st.cache p r h']

theorem cachePut_of_miss (st : Store) (p r : String) (h : cacheGet st p = none) :
    cachePut st p r = .ok ⟨st.cache ++ [(p, r)], st.tech⟩ := by
  have h' := (cacheGet_eq_none_iff st p).mp h
  simp [cachePut, h']

theorem persistStep_reliable_of_miss (st : Store) (p r : String) (cg : Bool)
    (h : cacheGet st p = none) :
    persistStep reliable st p r cg =
      (.ok r, ⟨st.cache ++ [(p, r)], st.tech⟩, ⟨true, cg, true⟩) := by
  simp [persistStep, reliable, cachePut_of_miss st p r h]

theorem ask_hit (env : SqliteEnv) (st : Store) (gen : GenClient) (P R : String)
    (hP : ¬ P = "") (hg : env.getRaises = false) (h : cacheGet st P = some R) :
    ask env (some P) st gen = (.ok R, st, noTrace) := by
  simp [ask, hP, hg, h]

theorem ask_knowledge (st : Store) (gen : GenClient) (P : String) (hP : ¬ P = "")
    (hmiss : cacheGet st P = none) (hres : ¬ searchTech st P = []) :
    ask reliable (some P) st gen =
      persistStep reliable st P
        (String.intercalate "\n"
          ((searchTech st P).map (fun r => r.name ++ ": " ++ r.description)))
        false := by
  simp [ask, hP, hmiss, hres, reliable]

theorem ask_generative (st : Store) (gen : GenClient) (P : String) (hP : ¬ P = "")
    (hmiss : cacheGet st P = none) (hres : searchTech st P = []) :
    ask reliable (some P) st gen =
      match gen P with
      | .ok text => persistStep reliable st P text true
      | .error e => persistStep reliable st P ("[Error calling model: " ++ e ++ "]") true := by
  simp [ask, hP, hmiss, hres, reliable]

theorem ask_ok_cacheGet (st st2 : Store) (gen : GenClient) (P R : String) (tr : AskTrace)
    (h : ask reliable (some P) st gen = (.ok R, st2, tr)) :
    ¬ P = "" ∧ cacheGet st2 P = some R := by
  by_cases hP : P = ""
  · subst hP; simp [ask] at h
  · refine ⟨hP, ?_⟩
    cases hc : cacheGet st P with
    | some c =>
      rw [ask_hit reliable st gen P c hP rfl hc] at h
      simp only [Prod.mk.injEq, AskResult.ok.injEq] at h
      obtain ⟨hR, hst, -⟩ := h
      subst hR; subst hst
      exact hc
    | none =>
      by_cases hres : searchTech st P = []
      · rw [ask_generative st gen P hP hc hres] at h
        cases hgen : gen P with
        | ok text =>
          rw [hgen] at h
          have h' : persistStep reliable st P text true = (.ok R, st2, tr) := h
          rw [persistStep_reliable_of_miss st P text true hc] at h'
          simp only [Prod.mk.injEq, AskResult.ok.injEq] at h'
          obtain ⟨hR, hst, -⟩ := h'
          subst hR; subst hst
          exact cacheGet_append st st.tech P text hc
        | error e =>
          rw [hgen] at h
          have h' : persistStep reliable st P ("[Error calling model: " ++ e ++ "]") true =
              (.ok R, st2, tr) := h
          rw [persistStep_reliable_of_miss st P _ true hc] at h'
          simp only [Prod.mk.injEq, AskResult.ok.injEq] at h'
          obtain ⟨hR, hst, -⟩ := h'
          subst hR; subst hst
          exact cacheGet_append st st.tech P _ hc
      · rw [ask_knowledge st gen P hP hc hres,
          persistStep_reliable_of_miss st P _ false hc] at h
        simp only [Prod.mk.injEq, AskResult.ok.injEq] at h
        obtain ⟨hR, hst, -⟩ := h
        subst hR; subst hst
        exact cacheGet_append st st.tech P _ hc

/-! ### The claims -/

/-- C1: idempotent cache hit.  If one Ask resolution for prompt P succeeded
and left the store with some cache contents, then any later Ask call with
exactly P — against any later knowledge-base contents and any later
generative service — returns the same response R via the cache-hit path:
the store is unchanged and the trace records no knowledge search, no
generative call, and no cache write. -/
theorem ask_cache_hit_idempotent (st st2 : Store) (gen gen2 : GenClient) (P R : String)
    (tr : AskTrace) (h : ask reliable (some P) st gen = (.ok R, st2, tr))
    (tech2 : List TechRecord) :
    ask reliable (some P) ⟨st2.cache, tech2⟩ gen2 = (.ok R, ⟨st2.cache, tech2⟩, noTrace) := by
  obtain ⟨hP, hc⟩ := ask_ok_cacheGet st st2 gen P R tr h
  exact ask_hit reliable ⟨st2.cache, tech2⟩ gen2 P R hP rfl hc

/-- Witness for C1: a first Ask("zzz") resolves via the generative stub to
"42"; a second Ask("zzz") — with the knowledge base emptied and the
generative service now failing — still returns "42" from the cache with an
all-false trace. -/
theorem ask_cache_hit_idempotent_witness :
    ask reliable (some "zzz") ⟨[("zzz", "42")], []⟩ (fun _ => .error "down") =
      (.ok "42", ⟨[("zzz", "42")], []⟩, noTrace) := by
  have h : ask reliable (some "zzz") seededStore (fun _ => .ok "42") =
      (.ok "42", ⟨[("zzz", "42")], HEALTHCARE_TECH⟩, ⟨true, true, true⟩) := by decide
  exact ask_cache_hit_idempotent seededStore ⟨[("zzz", "42")], HEALTHCARE_TECH⟩
    (fun _ => .ok "42") (fun _ => .error "down") "zzz" "42" ⟨true, true, true⟩ h []

/-- C2: knowledge precedence over the generative fallback.  On a cache miss
whose knowledge search is non-empty, the resolution never calls the
generative client: the trace records no generative call and the whole
result is independent of the generative client supplied. -/
theorem knowledge_precedence (st : Store) (gen gen2 : GenClient) (P : String)
    (hmiss : cacheGet st P = none) (hres : ¬ searchTech st P = []) :
    (ask reliable (some P) st gen).2.2.calledGenerative = false ∧
    ask reliable (some P) st gen = ask reliable (some P) st gen2 := by
  by_cases hP : P = ""
  · subst hP; exact ⟨rfl, rfl⟩
  · rw [ask_knowledge st gen P hP hmiss hres, ask_knowledge st gen2 P hP hmiss hres]
    refine ⟨?_, rfl⟩
    rw [persistStep_reliable_of_miss st P _ false hmiss]

/-- Witness for C2 at the prompt "EMR", which matches two knowledge records:
the trace shows no generative call, and swapping the generative client for a
failing one does not change the outcome. -/
theorem knowledge_precedence_witness :
    ((ask reliable (some "EMR") seededStore (fun _ => .ok "42")).2.2.calledGenerative = false ∧
     ask reliable (some "EMR") seededStore (fun _ => .ok "42") =
       ask reliable (some "EMR") seededStore (fun _ => .error "down")) :=
  knowledge_precedence seededStore (fun _ => .ok "42") (fun _ => .error "down") "EMR"
    (by decide) (by decide)

/-- C4: degraded generative failure.  When the prompt misses the cache, the
knowledge search is empty, and the generative call raises with message e,
the exception is absorbed: the request returns HTTP success with the
placeholder "[Error calling model: e]", and exactly that placeholder string
is persisted into the cache under the prompt. -/
theorem degraded_generative_failure (st : Store) (gen : GenClient) (P e : String)
    (hP : ¬ P = "") (hmiss : cacheGet st P = none) (hres : searchTech st P = [])
    (hgen : gen P = .error e) :
    ask reliable (some P) st gen =
      (.ok ("[Error calling model: " ++ e ++ "]"),
       ⟨st.cache ++ [(P, "[Error calling model: " ++ e ++ "]")], st.tech⟩,
       ⟨true, true, true⟩) := by
  rw [ask_generative st gen P hP hmiss hres, hgen]
  exact persistStep_reliable_of_miss st P ("[Error calling model: " ++ e ++ "]") true hmiss

/-- Witness for C4: Ask("zzz") with a generative client raising "boom"
returns success with "[Error calling model: boom]" and caches it. -/
theorem degraded_generative_failure_witness :
    ask reliable (some "zzz") seededStore (fun _ => .error "boom") =
      (.ok "[Error calling model: boom]",
       ⟨[("zzz", "[Error calling model: boom]")], HEALTHCARE_TECH⟩,
       ⟨true, true, true⟩) := by
  have h := degraded_generative_failure seededStore (fun _ => .error "boom") "zzz" "boom"
    (by decide) (by decide) (by decide) rfl
  exact h.trans (by decide)

/-- C5 counterexample: the cache write is a plain INSERT on a primary-key
column, so writing a prompt that already has an entry does fail: it raises a
UNIQUE-constraint error rather than succeeding as an overwrite or no-op. -/
theorem cachePut_existing_key_cex :
    cachePut ⟨[("a", "1")], []⟩ "a" "2" = .error "UNIQUE constraint failed: cache.prompt" := rfl

/-- C5 (amended): the cache write succeeds (appending the entry) exactly
when the prompt key is absent; when an entry with that key already exists it
raises a UNIQUE-constraint failure instead of overwriting or no-op-ing. -/
theorem cachePut_key_semantics (st : Store) (p r : String) :
    (cacheGet st p = none → cachePut st p r = .ok ⟨st.cache ++ [(p, r)], st.tech⟩) ∧
    ∀ v, cacheGet st p = some v →
      cachePut st p r = .error "UNIQUE constraint failed: cache.prompt" := by
  constructor
  · exact cachePut_of_miss st p r
  · intro v hv
    cases h : st.cache.find? (fun e => e.1 == p) with
    | none => simp [cacheGet, h] at hv
    | some e => simp [cachePut, h]

/-- Witness for C5: a fresh key inserts; a present key raises. -/
theorem cachePut_key_semantics_witness :
    cachePut ⟨[], []⟩ "a" "1" = .ok ⟨[("a", "1")], []⟩ ∧
    cachePut ⟨[("a", "1")], []⟩ "a" "2" = .error "UNIQUE constraint failed: cache.prompt" :=
  ⟨(cachePut_key_semantics ⟨[], []⟩ "a" "1").1 rfl,
   (cachePut_key_semantics ⟨[("a", "1")], []⟩ "a" "2").2 "1" rfl⟩

/-- C6 counterexample: storage failures are not degraded.  With the storage
layer raising on reads, Ask("zzz") aborts with an uncaught server error —
the read failure is not treated as a cache miss and no pipeline stage runs;
with storage raising on writes, the already-computed response "42" is lost
and a server error is returned instead of the response. -/
theorem storage_error_cex :
    ask ⟨true, false⟩ (some "zzz") seededStore (fun _ => .ok "42") =
      (.serverError "StorageError", seededStore, noTrace) ∧
    ask ⟨false, true⟩ (some "zzz") seededStore (fun _ => .ok "42") =
      (.serverError "StorageError", seededStore, ⟨true, true, false⟩) :=
  ⟨by decide, by decide⟩

/-- C6 (amended): the route wraps no storage call in a handler, so storage
exceptions propagate: a failing read aborts the request with a server error
before any pipeline stage runs (it is not degraded to a cache miss), and a
failing write after a miss aborts the request with a server error, so the
already-computed response is not returned and nothing is persisted. -/
theorem storage_error_propagates (st : Store) (gen : GenClient) (P : String) (pr : Bool)
    (hP : ¬ P = "") :
    ask ⟨true, pr⟩ (some P) st gen = (.serverError "StorageError", st, noTrace) ∧
    (cacheGet st P = none →
      ∃ cg, ask ⟨false, true⟩ (some P) st gen =
        (.serverError "StorageError", st, ⟨true, cg, false⟩)) := by
  constructor
  · simp [ask, hP]
  · intro hmiss
    by_cases hres : searchTech st P = []
    · cases hgen : gen P with
      | ok text => exact ⟨true, by simp [ask, hP, hmiss, hres, hgen, persistStep]⟩
      | error e => exact ⟨true, by simp [ask, hP, hmiss, hres, hgen, persistStep]⟩
    · exact ⟨false, by simp [ask, hP, hmiss, hres, persistStep]⟩

/-- Witness for C6 at the concrete prompt "zzz" on the seeded store. -/
theorem storage_error_propagates_witness :
    (ask ⟨true, false⟩ (some "zzz") seededStore (fun _ => .ok "42") =
      (.serverError "StorageError", seededStore, noTrace)) ∧
    (∃ cg, ask ⟨false, true⟩ (some "zzz") seededStore (fun _ => .ok "42") =
      (.serverError "StorageError", seededStore, ⟨true, cg, false⟩)) := by
  have h := storage_error_propagates seededStore (fun _ => .ok "42") "zzz" false (by decide)
  exact ⟨h.1, h.2 rfl⟩

/-- C7: knowledge-hit response format.  On a cache miss with a non-empty
knowledge search, the response is the matched records' "name: description"
lines joined by a line break, in search order; it is returned with success
and persisted, and no generative call happens. -/
theorem knowledge_hit_format (st : Store) (gen : GenClient) (P : String) (hP : ¬ P = "")
    (hmiss : cacheGet st P = none) (hres : ¬ searchTech st P = []) :
    ask reliable (some P) st gen =
      (.ok (String.intercalate "\n"
          ((searchTech st P).map (fun r => r.name ++ ": " ++ r.description))),
       ⟨st.cache ++ [(P, String.intercalate "\n"
          ((searchTech st P).map (fun r => r.name ++ ": " ++ r.description)))], st.tech⟩,
       ⟨true, false, true⟩) := by
  rw [ask_knowledge st gen P hP hmiss hres, persistStep_reliable_of_miss st P _ false hmiss]

/-- Witness for C7: Ask("EMR") formats the two matching records in seed
order, joined by a newline, and caches the formatted string. -/
theorem knowledge_hit_format_witness :
    ask reliable (some "EMR") seededStore (fun _ => .error "down") =
      (.ok "OpenMRS: Customizable EMR system.\nOpenEMR: Open-source EHR and practice management.",
       ⟨[("EMR", "OpenMRS: Customizable EMR system.\nOpenEMR: Open-source EHR and practice management.")],
        HEALTHCARE_TECH⟩,
       ⟨true, false, true⟩) := by
  have h := knowledge_hit_format seededStore (fun _ => .error "down") "EMR"
    (by decide) (by decide) (by decide)
  exact h.trans (by decide)

/-- C9: one-time idempotent initialization.  init_db seeds the knowledge
table from the built-in list with an empty cache only when the database file
is absent; an existing store is left exactly as it is, so running init_db
twice equals running it once. -/
theorem init_db_idempotent (db : Option Store) :
    init_db (init_db db) = init_db db ∧
    init_db none = some seededStore ∧
    ∀ st : Store, init_db (some st) = some st := by
  refine ⟨?_, rfl, fun st => rfl⟩
  cases db <;> rfl

/-- C10: an empty-string prompt is rejected exactly like an absent prompt:
the route returns the 400 "Prompt is required" validation error, leaves the
store untouched, and runs no pipeline stage, for every storage-availability
environment (so not even the cache read happens). -/
theorem empty_prompt_validation (env : SqliteEnv) (st : Store) (gen : GenClient) :
    ask env (some "") st gen = (.badRequest "Prompt is required", st, noTrace) ∧
    ask env (some "") st gen = ask env none st gen := by
  constructor <;> simp [ask]

/-! ### Helper lemmas for the autotag label selection -/

theorem getD_at_lt {α : Type} (l : List α) (d : α) (i : Nat) (h : i < l.length) :
    l.getD i d = l.get ⟨i, h⟩ := by
  rw [List.getD_eq_getElem?_getD, List.getElem?_eq_getElem h]
  rfl

theorem foldl_max_mem (a : ℚ) (xs : List ℚ) : xs.foldl max a = a ∨ xs.foldl max a ∈ xs := by
  induction xs generalizing a with
  | nil => exact Or.inl rfl
  | cons y ys ih =>
    simp only [List.foldl_cons]
    rcases ih (max a y) with h | h
    · rcases max_choice a y with hm | hm
      · exact Or.inl (by rw [h, hm])
      · exact Or.inr (by rw [h, hm]; exact List.mem_cons_self y ys)
    · exact Or.inr (List.mem_cons_of_mem y h)

theorem foldl_max_le (a : ℚ) (xs : List ℚ) :
    a ≤ xs.foldl max a ∧ ∀ x ∈ xs, x ≤ xs.foldl max a := by
  induction xs generalizing a with
  | nil => exact ⟨le_refl a, by simp⟩
  | cons y ys ih =>
    simp only [List.foldl_cons]
    obtain ⟨h1, h2⟩ := ih (max a y)
    refine ⟨le_trans (le_max_left a y) h1, ?_⟩
    intro x hx
    rcases List.mem_cons.mp hx with rfl | hx'
    · exact le_trans (le_max_right a x) h1
    · exact h2 x hx'

theorem listMax_mem (l : List ℚ) (hl : ¬ l = []) : listMax l ∈ l := by
  cases l with
  | nil => exact absurd rfl hl
  | cons x xs =>
    show xs.foldl max x ∈ x :: xs
    rcases foldl_max_mem x xs with h | h
    · rw [h]; exact List.mem_cons_self x xs
    · exact List.mem_cons_of_mem x h

theorem le_listMax (l : List ℚ) (x : ℚ) (hx : x ∈ l) : x ≤ listMax l := by
  cases l with
  | nil => exact absurd hx (List.not_mem_nil x)
  | cons y ys =>
    show x ≤ ys.foldl max y
    rcases List.mem_cons.mp hx with rfl | h
    · exact (foldl_max_le x ys).1
    · exact (foldl_max_le y ys).2 x h

/-- C8: fixed-label closure.  For any 4-entry softmax probability vector the
autotag selection returns a member of the fixed label list
robot/sensor/healthcare/technology — never empty, never out of set — and the
label chosen sits at the first index attaining the maximum probability:
every entry is at most the selected one, and every entry strictly before the
selected index is strictly below the maximum (first-occurrence tie-break). -/
theorem autotag_fixed_label (probs : List ℚ) (h : probs.length = 4) :
    autotagSelect probs ∈ tags ∧
    ∃ i, i < probs.length ∧
      autotagSelect probs = tags.getD i "" ∧
      probs.getD i 0 = listMax probs ∧
      (∀ x ∈ probs, x ≤ probs.getD i 0) ∧
      ∀ j, j < i → probs.getD j 0 < probs.getD i 0 := by
  have hne : ¬ probs = [] := by
    intro he
    rw [he] at h
    simp at h
  have hex : ∃ x ∈ probs, (fun x => decide (x = listMax probs)) x :=
    ⟨listMax probs, listMax_mem probs hne, by simp⟩
  have hi : probs.findIdx (fun x => decide (x = listMax probs)) < probs.length :=
    List.findIdx_lt_length_of_exists hex
  have h4 : probs.findIdx (fun x => decide (x = listMax probs)) < 4 := by
    rw [← h]; exact hi
  have hival : probs.get ⟨probs.findIdx (fun x => decide (x = listMax probs)), hi⟩ =
      listMax probs := by
    have := @List.findIdx_getElem _ (fun x => decide (x = listMax probs)) probs hi
    simpa using this
  have hgetD : probs.getD (probs.findIdx (fun x => decide (x = listMax probs))) 0 =
      listMax probs := by
    rw [getD_at_lt probs 0 _ hi]
    exact hival
  have hmem : autotagSelect probs ∈ tags := by
    rw [show autotagSelect probs =
        tags.getD (probs.findIdx (fun x => decide (x = listMax probs))) "" from rfl,
      getD_at_lt tags "" _ h4]
    exact List.get_mem tags _ h4
  refine ⟨hmem, probs.findIdx (fun x => decide (x = listMax probs)), hi, rfl, hgetD, ?_, ?_⟩
  · intro x hx
    rw [hgetD]
    exact le_listMax probs x hx
  · intro j hj
    have hjlen : j < probs.length := lt_trans hj hi
    have hne2 : ¬ probs.get ⟨j, hjlen⟩ = listMax probs := by
      have := List.not_of_lt_findIdx hj
      simpa using this
    rw [getD_at_lt probs 0 j hjlen, hgetD]
    exact lt_of_le_of_ne (le_listMax probs _ (List.get_mem probs j hjlen)) hne2

/-- Witness for C8 on the uniform vector: all four probabilities tie, and
the tie-break selects index 0, the label "robot". -/
theorem autotag_fixed_label_witness :
    autotagSelect [(1 : ℚ)/4, 1/4, 1/4, 1/4] ∈ tags ∧
    ∃ i, i < ([(1 : ℚ)/4, 1/4, 1/4, 1/4] : List ℚ).length ∧
      autotagSelect [(1 : ℚ)/4, 1/4, 1/4, 1/4] = tags.getD i "" ∧
      ([(1 : ℚ)/4, 1/4, 1/4, 1/4] : List ℚ).getD i 0 = listMax [(1 : ℚ)/4, 1/4, 1/4, 1/4] ∧
      (∀ x ∈ ([(1 : ℚ)/4, 1/4, 1/4, 1/4] : List ℚ),
        x ≤ ([(1 : ℚ)/4, 1/4, 1/4, 1/4] : List ℚ).getD i 0) ∧
      ∀ j, j < i →
        ([(1 : ℚ)/4, 1/4, 1/4, 1/4] : List ℚ).getD j 0 <
          ([(1 : ℚ)/4, 1/4, 1/4, 1/4] : List ℚ).getD i 0 :=
  autotag_fixed_label [(1 : ℚ)/4, 1/4, 1/4, 1/4] rfl

/-! ### Correctness of the LIKE matcher on wildcard-free queries -/

theorem likeStar_iff (m : List Char → Bool) (s : List Char) :
    likeStar m s = true ↔ ∃ t, t <:+ s ∧ m t = true := by
  induction s with
  | nil =>
    simp only [likeStar]
    constructor
    · intro h
      exact ⟨[], List.suffix_rfl, h⟩
    · rintro ⟨t, ht, hm⟩
      obtain rfl := List.suffix_nil.mp ht
      exact hm
  | cons c s ih =>
    simp only [likeStar, Bool.or_eq_true, ih]
    constructor
    · rintro (h | ⟨t, ht, hm⟩)
      · exact ⟨c :: s, List.suffix_rfl, h⟩
      · exact ⟨t, ht.trans (List.suffix_cons c s), hm⟩
    · rintro ⟨t, ht, hm⟩
      rcases List.suffix_cons_iff.mp ht with rfl | ht'
      · exact Or.inl hm
      · exact Or.inr ⟨t, ht', hm⟩

theorem likeM_append_pct (q : List Char) :
    ∀ s, (∀ c ∈ q, ¬ c = '%' ∧ ¬ c = '_') →
      (likeM (q ++ ['%']) s = true ↔
        ∃ u v, s = u ++ v ∧ u.map asciiLower = q.map asciiLower) := by
  induction q with
  | nil =>
    intro s _
    rw [List.nil_append,
      show likeM ['%'] s = likeStar (likeM []) s from rfl, likeStar_iff]
    constructor
    · intro _
      exact ⟨[], s, rfl, rfl⟩
    · intro _
      exact ⟨[], List.nil_suffix, rfl⟩
  | cons a q ih =>
    intro s hq
    have ha := hq a (List.mem_cons_self a q)
    have hq' : ∀ c ∈ q, ¬ c = '%' ∧ ¬ c = '_' :=
      fun c hc => hq c (List.mem_cons_of_mem a hc)
    cases s with
    | nil =>
      simp only [List.cons_append, likeM, if_neg ha.1]
      constructor
      · intro h
        cases h
      · rintro ⟨u, v, huv, hmap⟩
        obtain ⟨rfl, rfl⟩ := List.append_eq_nil.mp huv.symm
        simp at hmap
    | cons c s' =>
      simp only [List.cons_append, likeM, if_neg ha.1, if_neg ha.2, Bool.and_eq_true,
        decide_eq_true_eq, List.append_eq, ih s' hq', List.map_cons]
      constructor
      · rintro ⟨hac, u, v, rfl, hmap⟩
        refine ⟨c :: u, v, rfl, ?_⟩
        simp [hmap, hac]
      · rintro ⟨u, v, huv, hmap⟩
        cases u with
        | nil => simp at hmap
        | cons d u' =>
          rw [List.cons_append] at huv
          obtain ⟨rfl, rfl⟩ : c = d ∧ s' = u' ++ v := by
            have := List.cons.injEq .. ▸ huv
            exact ⟨(List.cons.inj huv).1, (List.cons.inj huv).2⟩
          rw [List.map_cons] at hmap
          obtain ⟨hda, hmap'⟩ := List.cons.inj hmap
          exact ⟨hda.symm, u', v, rfl, hmap'⟩

theorem likeM_pat_iff (q s : List Char) (hq : ∀ c ∈ q, ¬ c = '%' ∧ ¬ c = '_') :
    likeM ('%' :: q ++ ['%']) s = true ↔ (q.map asciiLower) <:+: (s.map asciiLower) := by
  rw [show likeM ('%' :: q ++ ['%']) s = likeStar (likeM (q ++ ['%'])) s from rfl,
    likeStar_iff]
  constructor
  · rintro ⟨t, ht, hm⟩
    obtain ⟨u, v, rfl, hmap⟩ := (likeM_append_pct q t hq).mp hm
    obtain ⟨w, rfl⟩ := ht
    refine ⟨w.map asciiLower, v.map asciiLower, ?_⟩
    rw [← hmap]
    simp
  · rintro ⟨x, y, hxy⟩
    have h1 : s.map asciiLower = x ++ (q.map asciiLower ++ y) := by
      rw [← hxy, List.append_assoc]
    obtain ⟨s1, s2, rfl, hs1, hs2⟩ := List.map_eq_append_iff.mp h1
    obtain ⟨u, v, rfl, hu, hv⟩ := List.map_eq_append_iff.mp hs2
    refine ⟨u ++ v, ⟨s1, rfl⟩, ?_⟩
    exact (likeM_append_pct q (u ++ v) hq).mpr ⟨u, v, rfl, hu⟩

theorem likeM_pat_eq_decide (q : String) (hq : ∀ c ∈ q.data, ¬ c = '%' ∧ ¬ c = '_')
    (s : List Char) :
    likeM (likePat q) s = decide ((q.data.map asciiLower) <:+: (s.map asciiLower)) := by
  cases hb : likeM (likePat q) s with
  | true =>
    have hinf := (likeM_pat_iff q.data s hq).mp hb
    simp [hinf]
  | false =>
    have hninf : ¬ (q.data.map asciiLower) <:+: (s.map asciiLower) := by
      intro hinf
      have hb' : likeM ('%' :: q.data ++ ['%']) s = false := hb
      have := (likeM_pat_iff q.data s hq).mpr hinf
      rw [hb'] at this
      simp at this
    simp [hninf]

/-- C3 counterexample: the knowledge search is not case-sensitive.  The
query "openmrs" matches the record named "OpenMRS" through SQLite's default
case-insensitive LIKE comparison, even though neither the record's name nor
its description contains "openmrs" as a case-sensitive literal substring —
the search following the claim's case-sensitive wording returns nothing. -/
theorem search_case_sensitivity_cex :
    searchTech seededStore "openmrs" =
      [⟨"OpenMRS", "Customizable EMR system.", "https://openmrs.org/"⟩] ∧
    litSub "openmrs".data "OpenMRS".data = false ∧
    litSub "openmrs".data "Customizable EMR system.".data = false ∧
    specSearch seededStore "openmrs" = [] :=
  ⟨by decide, by decide, by decide, by decide⟩

/-- C3 (amended): for every query containing no LIKE wildcard character
(no percent sign and no underscore), the knowledge search returns exactly
the records whose name or description contains the query as an
ASCII-case-insensitive substring (the default SQLite LIKE comparison), not a
case-sensitive one; the result keeps the table's stable seed order (it is a
sublist of the tech table). -/
theorem search_like_ci_substring (st : Store) (q : String)
    (hq : ∀ c ∈ q.data, ¬ c = '%' ∧ ¬ c = '_') :
    searchTech st q = st.tech.filter (fun r =>
      decide ((q.data.map asciiLower) <:+: (r.name.data.map asciiLower)) ||
      decide ((q.data.map asciiLower) <:+: (r.description.data.map asciiLower))) ∧
    List.Sublist (searchTech st q) st.tech := by
  constructor
  · unfold searchTech
    apply List.filter_congr
    intro r _
    rw [likeM_pat_eq_decide q hq r.name.data, likeM_pat_eq_decide q hq r.description.data]
  · exact List.filter_sublist st.tech

/-- Witness for C3 at the wildcard-free query "emr": the search equals the
case-insensitive-substring filter over the seeded table and is a sublist of
it (here it returns the OpenMRS and OpenEMR records, in seed order). -/
theorem search_like_ci_substring_witness :
    (searchTech seededStore "emr" = seededStore.tech.filter (fun r =>
      decide ((("emr").data.map asciiLower) <:+: (r.name.data.map asciiLower)) ||
      decide ((("emr").data.map asciiLower) <:+: (r.description.data.map asciiLower))) ∧
     List.Sublist (searchTech seededStore "emr") seededStore.tech) :=
  search_like_ci_substring seededStore "emr" (by decide)

/-- Witness for C9 at concrete database states: absent and already-seeded. -/
theorem init_db_idempotent_witness :
    init_db (init_db none) = init_db none ∧ init_db (some seededStore) = some seededStore :=
  ⟨(init_db_idempotent none).1, (init_db_idempotent (some seededStore)).2.2 seededStore⟩

/-- Witness for C10 on the seeded store with a fully failing storage layer:
the empty prompt still yields the 400 validation error, like an absent
prompt, with no storage access. -/
theorem empty_prompt_validation_witness :
    ask ⟨true, true⟩ (some "") seededStore (fun _ => .ok "42") =
      (.badRequest "Prompt is required", seededStore, noTrace) ∧
    ask ⟨true, true⟩ (some "") seededStore (fun _ => .ok "42") =
      ask ⟨true, true⟩ none seededStore (fun _ => .ok "42") :=
  empty_prompt_validation ⟨true, true⟩ seededStore (fun _ => .ok "42")
